import Mathlib

/-!
Verification development for the weather-extractor pipeline
(`src/weather_extractor.py`).

The Python source fetches one table per enabled variable group from an
HTTP archive, merges the per-group tables with a pandas outer join on the
`time` column (dropping `_dup`-suffixed duplicate columns), sorts by time,
and optionally resamples the merged hourly table to daily or monthly
statistics.

Shallow embedding conventions:
- A pandas DataFrame produced by the pipeline always carries a `time`
  column; it is embedded as `Table`, whose rows pair a `Timestamp` (the
  `time` cell) with the list of values of the variable columns (`cols`).
  A missing value (pandas `NaN`) is `Option.none`; numeric values are `ℚ`.
- The HTTP layer is an oracle `fetch : String → Option Table`:
  `none` models every per-group failure the source recovers from
  (transport error, non-success HTTP status via `raise_for_status`, or a
  JSON body without the `hourly` key); `some t` models a successfully
  parsed hourly table.
- pandas `merge(..., on='time', how='outer', suffixes=('', '_dup'))`
  sorts the union of keys; it is embedded for inputs whose `time` values
  are unique within each table (the TimeSeriesTable invariant of the
  source's data model — duplicated keys would make pandas emit per-key
  cartesian products, which no claim exercises).
- pandas aggregation semantics: `mean`/`min`/`max` skip missing values
  and yield missing when the whole bucket is missing; `sum` skips missing
  values and yields 0 on an all-missing bucket (default `min_count=0`).
- `round(2)` is embedded as exact half-even rounding on ℚ at two
  decimal places.
-/

/-- A calendar timestamp as parsed by `pd.to_datetime`: year, month, day
and hour fields compared lexicographically. -/
structure Timestamp where
  year : Int
  month : Nat
  day : Nat
  hour : Nat
deriving DecidableEq, Repr

/-- Lexicographic (non-strict) comparison of timestamps, the order used
by pandas when sorting datetimes. -/
def tble (a b : Timestamp) : Bool :=
  decide (a.year < b.year) ||
    (decide (a.year = b.year) && (decide (a.month < b.month) ||
      (decide (a.month = b.month) && (decide (a.day < b.day) ||
        (decide (a.day = b.day) && decide (a.hour ≤ b.hour))))))

/-- The timestamp order as a `Prop`-valued relation, for `List.Sorted`. -/
def tleProp (a b : Timestamp) : Prop := tble a b = true

instance : DecidableRel tleProp := fun a b => by
  unfold tleProp; infer_instance

instance : IsTotal Timestamp tleProp :=
  ⟨fun a b => by
    cases a; cases b
    simp only [tleProp, tble, Bool.or_eq_true, Bool.and_eq_true,
      decide_eq_true_eq]
    omega⟩

instance : IsTrans Timestamp tleProp :=
  ⟨fun a b c hab hbc => by
    cases a; cases b; cases c
    simp only [tleProp, tble, Bool.or_eq_true, Bool.and_eq_true,
      decide_eq_true_eq] at *
    omega⟩

/-- A timestamped table: a pandas DataFrame with a `time` column (stored
structurally as the first component of each row) plus one value column
per entry of `cols`; each row's value list is aligned with `cols`.
A `none` cell is pandas `NaN`. -/
structure Table where
  cols : List String
  rows : List (Timestamp × List (Option ℚ))
deriving DecidableEq, Repr

/-- The `time` column of a table, in row order. -/
def Table.times (T : Table) : List Timestamp := T.rows.map (fun r => r.1)

/-- Index of the first column named `c`, mirroring label lookup in a
pandas frame. -/
def idxOf? (c : String) : List String → Option Nat
  | [] => none
  | d :: ds => if d = c then some 0 else (idxOf? c ds).map (· + 1)

/-- Value of column `c` in a row with value list `vals` aligned to
`cols`: `none` when the column is absent or the cell is missing. -/
def cellVal (cols : List String) (vals : List (Option ℚ)) (c : String) : Option ℚ :=
  match idxOf? c cols with
  | none => none
  | some i => (vals.get? i).getD none

/-- Value of column `c` at time `t`: `none` when no row has time `t`,
the column is absent, or the cell is missing. -/
def Table.rowVal (T : Table) (t : Timestamp) (c : String) : Option ℚ :=
  match T.rows.find? (fun r => decide (r.1 = t)) with
  | none => none
  | some r => cellVal T.cols r.2 c

/-- The union of two key lists as produced by a pandas outer merge:
every key from either side, deduplicated and sorted ascending. -/
def unionTimes (a b : List Timestamp) : List Timestamp :=
  List.insertionSort tleProp ((a ++ b).dedup)

/-- Python `col.endswith('_dup')`. -/
def endsDup (c : String) : Bool :=
  decide (c.data.reverse.take 4 = ['p', 'u', 'd', '_'])

/-- `pd.merge(acc, inc, on='time', how='outer', suffixes=('', '_dup'))`:
keys are the sorted union of both key sets; the accumulator's columns
keep their names, incoming columns whose name already occurs in the
accumulator are renamed with the `_dup` suffix; each side's cells come
from that side only (missing rows give `NaN`). Faithful for inputs with
unique `time` values. -/
def mergeRaw (acc inc : Table) : Table :=
  { cols := acc.cols ++ inc.cols.map (fun c =>
      if acc.cols.contains c then c ++ "_dup" else c),
    rows := (unionTimes acc.times inc.times).map (fun t =>
      (t, acc.cols.map (fun c => acc.rowVal t c) ++
          inc.cols.map (fun c => inc.rowVal t c))) }

/-- `merged_df.drop(columns=[col for col in merged_df.columns if
col.endswith('_dup')])`. -/
def dropDup (T : Table) : Table :=
  { cols := T.cols.filter (fun c => !endsDup c),
    rows := T.rows.map (fun r =>
      (r.1, ((T.cols.zip r.2).filter (fun p => !endsDup p.1)).map (fun p => p.2))) }

/-- One iteration of the source's merge loop: outer-join on `time`, then
drop `_dup`-suffixed duplicate columns. -/
def mergeStep (acc inc : Table) : Table := dropDup (mergeRaw acc inc)

/-- `merged_df.sort_values('time')`. -/
def sortTable (T : Table) : Table :=
  { cols := T.cols,
    rows := List.insertionSort (fun r s => tleProp r.1 s.1) T.rows }

/-- The merge phase of `extract_weather_data_multi`: `none` when the
table list is empty (the `NoDataRetrieved` branch), otherwise the left
fold of `mergeStep` over the fetched tables followed by the final
`sort_values('time')`. -/
def mergeAll : List Table → Option Table
  | [] => none
  | d :: rest => some (sortTable (rest.foldl mergeStep d))

/-- Half-even ("banker's") rounding of a rational to an integer, the
rounding mode of numpy/pandas `round`. -/
def roundHalfEven (q : ℚ) : Int :=
  let n := ⌊q⌋
  let f := q - n
  if f < 1 / 2 then n
  else if 1 / 2 < f then n + 1
  else if n % 2 = 0 then n else n + 1

/-- pandas `.round(2)` on an exact rational value. -/
def round2 (q : ℚ) : ℚ := (roundHalfEven (q * 100) : ℚ) / 100

/-- The cells of a column that are not missing (pandas aggregation skips
`NaN`). -/
def presentVals (vs : List (Option ℚ)) : List ℚ := vs.filterMap id

/-- pandas `mean` over a bucket, then `.round(2)`: missing when every
cell of the bucket is missing. -/
def aggMean (vs : List (Option ℚ)) : Option ℚ :=
  let p := presentVals vs
  if p.length = 0 then none else some (round2 (p.sum / p.length))

/-- pandas `min` over a bucket, then `.round(2)`: missing when every
cell of the bucket is missing. -/
def aggMin (vs : List (Option ℚ)) : Option ℚ :=
  match presentVals vs with
  | [] => none
  | x :: xs => some (round2 (xs.foldl min x))

/-- pandas `max` over a bucket, then `.round(2)`: missing when every
cell of the bucket is missing. -/
def aggMax (vs : List (Option ℚ)) : Option ℚ :=
  match presentVals vs with
  | [] => none
  | x :: xs => some (round2 (xs.foldl max x))

/-- pandas `sum` over a bucket, then `.round(2)`: skips missing cells
and yields 0 — not a missing marker — on an all-missing bucket
(default `min_count=0`). -/
def aggSum (vs : List (Option ℚ)) : Option ℚ :=
  some (round2 (presentVals vs).sum)

/-- The daily statistic set of `_resample_to_daily`:
`{col: ['mean', 'min', 'max']}`. -/
def stats3 : List (String × (List (Option ℚ) → Option ℚ)) :=
  [("mean", aggMean), ("min", aggMin), ("max", aggMax)]

/-- The statistic set of `_resample_to_monthly` and `get_daily_summary`:
`['mean', 'min', 'max', 'sum']`. -/
def stats4 : List (String × (List (Option ℚ) → Option ℚ)) :=
  [("mean", aggMean), ("min", aggMin), ("max", aggMax), ("sum", aggSum)]

/-- `pd.to_datetime(df['time']).dt.date`: the calendar date of a
timestamp, kept as the midnight timestamp (the value
`pd.to_datetime(date)` assigns to the output `time` column). -/
def dateOf (t : Timestamp) : Timestamp := { t with hour := 0 }

/-- `df['date'].dt.to_period('M')` followed by
`pd.to_datetime(period.astype(str))`: the first instant of the
timestamp's calendar month. -/
def monthOf (t : Timestamp) : Timestamp := { t with day := 1, hour := 0 }

/-- The cells of column `c` over the rows of `T` falling in bucket `b`,
in row order. -/
def bucketVals (T : Table) (bucket : Timestamp → Timestamp) (b : Timestamp)
    (c : String) : List (Option ℚ) :=
  T.rows.filterMap (fun r =>
    if bucket r.1 = b then some (cellVal T.cols r.2 c) else none)

/-- Common shape of the source's three resampling routines:
`df.groupby(key)[numeric_cols].agg({col: stats}).round(2)` with
flattened `f"{col}_{stat}"` column names. `numeric_cols` excludes the
helper columns listed in `excl` (the source builds, then drops, `date`
and `year_month` helper columns); `groupby` emits one row per distinct
bucket key, sorted ascending. -/
def resampleAgg (bucket : Timestamp → Timestamp)
    (stats : List (String × (List (Option ℚ) → Option ℚ)))
    (excl : List String) (T : Table) : Table :=
  let ncols := T.cols.filter (fun c => !excl.contains c)
  let buckets := List.insertionSort tleProp
    ((T.rows.map (fun r => bucket r.1)).dedup)
  { cols := ncols.flatMap (fun c => stats.map (fun s => c ++ "_" ++ s.1)),
    rows := buckets.map (fun b =>
      (b, ncols.flatMap (fun c => stats.map (fun s =>
        s.2 (bucketVals T bucket b c))))) }

/-- `_resample_to_daily`: group by calendar date, statistics
mean/min/max rounded to 2 decimals; the output `time` column is
`pd.to_datetime(date)`, i.e. the date's midnight timestamp. -/
def resample_to_daily (T : Table) : Table :=
  resampleAgg dateOf stats3 ["date"] T

/-- `_resample_to_monthly`: group by calendar year-month, statistics
mean/min/max/sum rounded to 2 decimals; the output `time` column is the
first instant of the month. -/
def resample_to_monthly (T : Table) : Table :=
  resampleAgg monthOf stats4 ["date", "year_month"] T

/-- The class constant `WeatherExtractor.VARIABLE_GROUPS`, verbatim. -/
def VARIABLE_GROUPS : List (String × List String) :=
  [("basic_weather",
    ["temperature_2m", "apparent_temperature", "relative_humidity_2m",
     "dewpoint_2m", "precipitation", "rain", "snowfall", "wind_speed_10m",
     "wind_direction_10m", "pressure_msl", "surface_pressure", "cloud_cover",
     "cloud_cover_low", "cloud_cover_mid", "cloud_cover_high"]),
   ("solar_radiation",
    ["shortwave_radiation", "direct_radiation", "diffuse_radiation"]),
   ("soil",
    ["soil_temperature_0cm", "soil_temperature_6cm", "soil_moisture_0_1cm"])]

/-- Python `group_name in WeatherExtractor.VARIABLE_GROUPS`. -/
def catalogHas (g : String) : Bool :=
  (VARIABLE_GROUPS.find? (fun p => decide (p.1 = g))).isSome

/-- The two fatal errors `extract_weather_data_multi` can raise after
date parsing: `ValueError("Start date must be before end date")` and
`ValueError("No data was successfully retrieved from any group")`. -/
inductive PipeError where
  | invalidDateRange
  | noDataRetrieved
deriving DecidableEq, Repr

instance : DecidableEq (Except PipeError Table) := fun x y =>
  match x, y with
  | .error a, .error b =>
      if h : a = b then isTrue (by rw [h]) else isFalse (by simp [h])
  | .ok a, .ok b =>
      if h : a = b then isTrue (by rw [h]) else isFalse (by simp [h])
  | .error _, .ok _ => isFalse (by simp)
  | .ok _, .error _ => isFalse (by simp)

/-- Observable outcome of one call to `extract_weather_data_multi`:
the returned table or raised error, the per-group warnings printed for
recovered fetch failures, and the groups for which an HTTP request was
issued, in issue order. -/
structure RunResult where
  result : Except PipeError Table
  warnings : List String
  requests : List String
deriving DecidableEq, Repr

/-- `if temporal_resolution == 'daily': ... elif 'monthly': ...`
(any other string, e.g. `'hourly'`, is a pass-through). -/
def applyResolution (res : String) (m : Table) : Table :=
  if res = "daily" then resample_to_daily m
  else if res = "monthly" then resample_to_monthly m
  else m

/-- `WeatherExtractor.extract_weather_data_multi`. Control flow of the
source: parse and compare the dates (raising before any request when
start > end); iterate the input mapping `active_groups.items()` in its
own order, skipping disabled or unknown groups; issue one request per
remaining group, collecting a parsed table on success and a warning on
any recovered failure; raise `NoDataRetrieved` when no table at all was
collected; otherwise fold the outer merge, sort by time and apply the
requested resampling. The HTTP layer is the oracle `fetch`. -/
def extract_weather_data_multi (start_date end_date : Timestamp)
    (active_groups : List (String × Bool)) (fetch : String → Option Table)
    (temporal_resolution : String) : RunResult :=
  if !tble start_date end_date then
    { result := .error .invalidDateRange, warnings := [], requests := [] }
  else
    let attempted := active_groups.filter (fun p => p.2 && catalogHas p.1)
    let dfs := attempted.filterMap (fun p => fetch p.1)
    { result :=
        match mergeAll dfs with
        | none => .error .noDataRetrieved
        | some m => .ok (applyResolution temporal_resolution m),
      warnings := (attempted.filter (fun p => (fetch p.1).isNone)).map (fun p => p.1),
      requests := attempted.map (fun p => p.1) }

/-- `WeatherExtractor.get_daily_summary` for frames that have a `time`
column (the only case the claims quantify over; otherwise the source
raises before touching the frame). The source first executes
`df['date'] = pd.to_datetime(df['time']).dt.date`, mutating the
caller's frame, then groups by `date` with statistics
mean/min/max/sum and returns the `reset_index`ed summary, whose key
column is `date` (no `time` column is produced). Returned triple:
the caller frame's column list after the in-place mutation (`time` and
the variable columns, with `date` appended when new), the name of the
summary's key column, and the summary table. -/
def get_daily_summary (df : Table) : List String × String × Table :=
  ("time" :: df.cols ++ (if df.cols.contains "date" then [] else ["date"]),
   "date",
   resampleAgg dateOf stats4 ["date"] df)

/-- The pointwise order on rows compared by their `time` cell, the order
`sort_values('time')` uses. -/
def rowle (r s : Timestamp × List (Option ℚ)) : Prop := tleProp r.1 s.1

instance : DecidableRel rowle := fun r s => by
  unfold rowle tleProp; infer_instance

instance : IsTotal (Timestamp × List (Option ℚ)) rowle :=
  ⟨fun r s => IsTotal.total (r := tleProp) r.1 s.1⟩

instance : IsTrans (Timestamp × List (Option ℚ)) rowle :=
  ⟨fun r s u => IsTrans.trans (r := tleProp) r.1 s.1 u.1⟩

/-- A concrete one-variable hourly table used by witnesses. -/
def tinyTable : Table := ⟨["a"], [(⟨2021, 1, 1, 1⟩, [some 1])]⟩

/-- A concrete fetch oracle: `soil` succeeds with `tinyTable`, every
other group fails. -/
def fetchSoilOnly : String → Option Table :=
  fun g => if g = "soil" then some tinyTable else none

/-- The spec scenario table for daily resampling: values [10, 20, 30]
all on one calendar date. -/
def hoursTable : Table :=
  ⟨["temperature_2m"],
   [(⟨2021, 6, 1, 0⟩, [some 10]), (⟨2021, 6, 1, 1⟩, [some 20]),
    (⟨2021, 6, 1, 2⟩, [some 30])]⟩

/-- All hours of a `D`-day month: day `d+1`, hour `h` for `d < D`,
`h < 24`. -/
def hoursOfMonth (y : Int) (m D : Nat) : List Timestamp :=
  (List.range D).flatMap (fun d =>
    (List.range 24).map (fun h => ⟨y, m, d + 1, h⟩))

/-- A one-variable hourly table holding the constant value `v` at every
hour of a `D`-day month. -/
def constMonthTable (y : Int) (m D : Nat) (v : ℚ) : Table :=
  ⟨["x"], (hoursOfMonth y m D).map (fun t => (t, [some v]))⟩

/-- A merged table whose column `y` is missing at every hour of the
bucket while `x` has data — the all-missing-column edge case. -/
def missTable : Table :=
  ⟨["x", "y"],
   [(⟨2021, 1, 1, 0⟩, [some 5, none]), (⟨2021, 1, 1, 1⟩, [some 7, none])]⟩

theorem tble_refl (a : Timestamp) : tble a a = true := by
  simp [tble]

theorem tble_trans (a b c : Timestamp) (hab : tble a b = true)
    (hbc : tble b c = true) : tble a c = true := by
  cases a; cases b; cases c
  simp only [tble, Bool.or_eq_true, Bool.and_eq_true, decide_eq_true_eq] at *
  omega

theorem tble_total (a b : Timestamp) : tble a b = true ∨ tble b a = true := by
  cases a; cases b
  simp only [tble, Bool.or_eq_true, Bool.and_eq_true, decide_eq_true_eq]
  omega

theorem tble_antisymm (a b : Timestamp) (hab : tble a b = true)
    (hba : tble b a = true) : a = b := by
  cases a; cases b
  simp only [tble, Bool.or_eq_true, Bool.and_eq_true, decide_eq_true_eq] at *
  simp only [Timestamp.mk.injEq]
  omega

theorem mem_unionTimes {t : Timestamp} {a b : List Timestamp} :
    t ∈ unionTimes a b ↔ t ∈ a ∨ t ∈ b := by
  unfold unionTimes
  rw [(List.perm_insertionSort _ _).mem_iff]
  simp [List.mem_dedup]

theorem nodup_unionTimes (a b : List Timestamp) : (unionTimes a b).Nodup :=
  ((List.perm_insertionSort _ _).nodup_iff).mpr (List.nodup_dedup _)

theorem sorted_unionTimes (a b : List Timestamp) :
    List.Sorted tleProp (unionTimes a b) :=
  List.sorted_insertionSort _ _

theorem length_unionTimes (a b : List Timestamp) :
    (unionTimes a b).length = (a.toFinset ∪ b.toFinset).card := by
  unfold unionTimes
  rw [(List.perm_insertionSort _ _).length_eq, ← List.toFinset_append,
    List.card_toFinset]

theorem times_mergeStep (A B : Table) :
    (mergeStep A B).times = unionTimes A.times B.times := by
  simp only [mergeStep, dropDup, mergeRaw, Table.times, List.map_map]
  exact List.map_id _

theorem times_sortTable_perm (T : Table) :
    (sortTable T).times.Perm T.times :=
  (List.perm_insertionSort _ _).map _

theorem sorted_times_sortTable (T : Table) :
    List.Sorted tleProp (sortTable T).times := by
  have h := List.sorted_insertionSort rowle T.rows
  unfold sortTable Table.times
  exact List.pairwise_map.mpr h

theorem roundHalfEven_intCast (n : ℤ) : roundHalfEven (n : ℚ) = n := by
  unfold roundHalfEven
  simp only [Int.floor_intCast]
  norm_num

theorem round2_eq2 (q r : ℚ) (n : ℤ) (h1 : q * 100 = (n : ℚ))
    (h2 : (n : ℚ) / 100 = r) : round2 q = r := by
  rw [round2, h1, roundHalfEven_intCast, h2]

theorem mergeAll_eq_none {l : List Table} : mergeAll l = none ↔ l = [] := by
  cases l <;> simp [mergeAll]

theorem filterMap_filter_of_none {α β : Type} (f : α → Option β) (p : α → Bool)
    (l : List α) (h : ∀ a ∈ l, p a = false → f a = none) :
    (l.filter p).filterMap f = l.filterMap f := by
  induction l with
  | nil => rfl
  | cons a as ih =>
    have ih2 := ih (fun x hx => h x (List.mem_cons_of_mem a hx))
    cases hp : p a with
    | true => simp [List.filter_cons, hp, List.filterMap_cons, ih2]
    | false =>
      have hfa : f a = none := h a (List.mem_cons_self a as) hp
      simp [List.filter_cons, hp, List.filterMap_cons, hfa, ih2]

/-- C9: for well-formed start and end dates, `extract_weather_data_multi`
raises `InvalidDateRange` exactly when the start date is strictly after
the end date, and in that case no request is issued (the raise precedes
the fetch loop). -/
theorem claim9_invalid_date_range (s e : Timestamp)
    (active : List (String × Bool)) (fetch : String → Option Table)
    (res : String) :
    ((extract_weather_data_multi s e active fetch res).result =
        .error .invalidDateRange ↔ tble s e = false) ∧
    (tble s e = false →
      (extract_weather_data_multi s e active fetch res).requests = []) := by
  unfold extract_weather_data_multi
  cases h : tble s e with
  | false => simp [h]
  | true =>
    simp only [h, Bool.not_true, Bool.false_eq_true, if_false, iff_false,
      false_implies, and_true]
    cases hm : mergeAll ((active.filter fun p => p.2 && catalogHas p.1).filterMap
        fun p => fetch p.1) <;> simp [hm]

/-- Witness for `claim9_invalid_date_range` at a concrete reversed
range: the claim instance evaluates and no request is issued. -/
theorem claim9_invalid_date_range_witness :
    (extract_weather_data_multi ⟨2021, 1, 2, 0⟩ ⟨2021, 1, 1, 0⟩
      [("soil", true)] (fun _ => none) "hourly").requests = [] :=
  (claim9_invalid_date_range ⟨2021, 1, 2, 0⟩ ⟨2021, 1, 1, 0⟩
    [("soil", true)] (fun _ => none) "hourly").2 (by decide)

/-- Counterexample to C4: the fetch loop iterates
`active_groups.items()`, so with both groups enabled and fetch always
succeeding, the mapping order [solar_radiation, basic_weather] issues
requests in that order while the permuted mapping issues them in the
opposite order — the request sequence follows the input mapping's
iteration order, not the catalog's, and two runs with the same enabled
set differ. -/
theorem claim4_order_cex :
    (extract_weather_data_multi ⟨2021, 1, 1, 0⟩ ⟨2021, 1, 1, 0⟩
        [("solar_radiation", true), ("basic_weather", true)]
        (fun _ => some ⟨[], []⟩) "hourly").requests =
      ["solar_radiation", "basic_weather"] ∧
    (extract_weather_data_multi ⟨2021, 1, 1, 0⟩ ⟨2021, 1, 1, 0⟩
        [("basic_weather", true), ("solar_radiation", true)]
        (fun _ => some ⟨[], []⟩) "hourly").requests =
      ["basic_weather", "solar_radiation"] ∧
    ¬ (extract_weather_data_multi ⟨2021, 1, 1, 0⟩ ⟨2021, 1, 1, 0⟩
        [("solar_radiation", true), ("basic_weather", true)]
        (fun _ => some ⟨[], []⟩) "hourly").requests =
      (extract_weather_data_multi ⟨2021, 1, 1, 0⟩ ⟨2021, 1, 1, 0⟩
        [("basic_weather", true), ("solar_radiation", true)]
        (fun _ => some ⟨[], []⟩) "hourly").requests ∧
    ¬ (extract_weather_data_multi ⟨2021, 1, 1, 0⟩ ⟨2021, 1, 1, 0⟩
        [("solar_radiation", true), ("basic_weather", true)]
        (fun _ => some ⟨[], []⟩) "hourly").requests =
      (VARIABLE_GROUPS.map (fun p => p.1)).filter
        (fun n => n = "solar_radiation" || n = "basic_weather") := by
  decide

/-- C4 as amended: the request sequence follows the iteration order of
the input mapping restricted to enabled groups present in the catalog;
entries with an unknown group identifier are silently ignored — removing
them changes nothing observable about the run. -/
theorem claim4_amended_mapping_order (s e : Timestamp)
    (active : List (String × Bool)) (fetch : String → Option Table)
    (res : String) (u : String) (hu : catalogHas u = false)
    (hd : tble s e = true) :
    extract_weather_data_multi s e active fetch res =
      extract_weather_data_multi s e (active.filter (fun p => p.1 ≠ u))
        fetch res ∧
    (extract_weather_data_multi s e active fetch res).requests =
      (active.filter (fun p => p.2 && catalogHas p.1)).map (fun p => p.1) := by
  have hfilter : (active.filter (fun p => p.1 ≠ u)).filter
      (fun p => p.2 && catalogHas p.1) =
      active.filter (fun p => p.2 && catalogHas p.1) := by
    rw [List.filter_filter]
    apply List.filter_congr
    intro p _
    by_cases hp : p.1 = u
    · rw [hp, hu]
      simp
    · simp [hp]
  constructor
  · unfold extract_weather_data_multi
    rw [hfilter]
  · unfold extract_weather_data_multi
    simp [hd]

/-- Witness for `claim4_amended_mapping_order`: a run containing an
unknown group identifier equals the run with that entry removed. -/
theorem claim4_amended_mapping_order_witness :
    extract_weather_data_multi ⟨2021, 1, 1, 0⟩ ⟨2021, 1, 1, 0⟩
        [("soil", true), ("not_a_group", true)] (fun _ => some ⟨[], []⟩)
        "hourly" =
      extract_weather_data_multi ⟨2021, 1, 1, 0⟩ ⟨2021, 1, 1, 0⟩
        ([("soil", true), ("not_a_group", true)].filter
          (fun p => p.1 ≠ "not_a_group")) (fun _ => some ⟨[], []⟩)
        "hourly" :=
  (claim4_amended_mapping_order ⟨2021, 1, 1, 0⟩ ⟨2021, 1, 1, 0⟩
    [("soil", true), ("not_a_group", true)] (fun _ => some ⟨[], []⟩)
    "hourly" "not_a_group" (by decide) (by decide)).1

/-- C2 as amended: after date validation the only error the pipeline can
raise is `NoDataRetrieved`, and it is raised exactly when no enabled
catalog group's fetch returns a parsed table at all — a group whose
fetch succeeds with an empty hourly table still counts as retrieved
data. -/
theorem claim2_amended_no_data (s e : Timestamp)
    (active : List (String × Bool)) (fetch : String → Option Table)
    (res : String) (hd : tble s e = true) :
    ((extract_weather_data_multi s e active fetch res).result =
        .error .noDataRetrieved ↔
      ∀ p ∈ active, p.2 = true → catalogHas p.1 = true → fetch p.1 = none) ∧
    (∀ er, (extract_weather_data_multi s e active fetch res).result =
        .error er → er = .noDataRetrieved) := by
  unfold extract_weather_data_multi
  simp only [hd, Bool.not_true, Bool.false_eq_true, if_false]
  constructor
  · cases hm : mergeAll ((active.filter fun p => p.2 && catalogHas p.1).filterMap
        fun p => fetch p.1) with
    | none =>
      simp only [hm, true_iff]
      rw [mergeAll_eq_none, List.filterMap_eq_nil_iff] at hm
      intro p hp h2 hcat
      exact hm p (List.mem_filter.mpr ⟨hp, by rw [h2, hcat]; rfl⟩)
    | some m =>
      simp only [hm, reduceCtorEq, false_iff]
      intro hall
      have : mergeAll ((active.filter fun p => p.2 && catalogHas p.1).filterMap
          fun p => fetch p.1) = none := by
        rw [mergeAll_eq_none, List.filterMap_eq_nil_iff]
        intro p hp
        have := List.mem_filter.mp hp
        exact hall p this.1 (Bool.and_eq_true_iff.mp this.2).1
          (Bool.and_eq_true_iff.mp this.2).2
      rw [this] at hm
      exact Option.noConfusion hm
  · intro er
    cases hm : mergeAll ((active.filter fun p => p.2 && catalogHas p.1).filterMap
        fun p => fetch p.1) <;> simp [hm]
    intro h
    exact h.symm

/-- Witness for `claim2_amended_no_data`: with a single enabled group
whose fetch fails, the run ends in `NoDataRetrieved`. -/
theorem claim2_amended_no_data_witness :
    (extract_weather_data_multi ⟨2021, 1, 1, 0⟩ ⟨2021, 1, 1, 0⟩
        [("soil", true)] (fun _ => none) "hourly").result =
      .error .noDataRetrieved :=
  ((claim2_amended_no_data ⟨2021, 1, 1, 0⟩ ⟨2021, 1, 1, 0⟩
    [("soil", true)] (fun _ => none) "hourly" (by decide)).1).mpr
    (by decide)

/-- Counterexample to C2 as stated: a run in which the only enabled
group succeeds but returns an empty hourly table (zero rows) — so no
enabled group yields a non-empty fetched table — yet the pipeline does
not fail with `NoDataRetrieved`: it returns the empty merged table. -/
theorem claim2_empty_table_cex :
    (extract_weather_data_multi ⟨2021, 1, 1, 0⟩ ⟨2021, 1, 1, 0⟩
        [("soil", true)]
        (fun g => if g = "soil" then some ⟨[], []⟩ else none)
        "hourly").result = .ok ⟨[], []⟩ ∧
    ¬ (extract_weather_data_multi ⟨2021, 1, 1, 0⟩ ⟨2021, 1, 1, 0⟩
        [("soil", true)]
        (fun g => if g = "soil" then some ⟨[], []⟩ else none)
        "hourly").result = .error .noDataRetrieved := by
  decide

/-- C1: when at least one enabled catalog group's fetch succeeds, a
fetch failure of another enabled catalog group (transport error,
non-success status, or missing hourly payload — all modelled by the
oracle returning `none`) leaves the run successful: the failed group is
recorded as a warning, the pipeline returns a table, and the returned
result is identical to that of the run with the failed group's entries
removed from the mapping — the failed group contributes nothing and its
failure never escalates to the caller. -/
theorem claim1_partial_failure (s e : Timestamp)
    (active : List (String × Bool)) (fetch : String → Option Table)
    (res : String) (gOk gBad : String) (tOk : Table)
    (hd : tble s e = true)
    (hok : (gOk, true) ∈ active) (hokCat : catalogHas gOk = true)
    (hokF : fetch gOk = some tOk)
    (hbad : (gBad, true) ∈ active) (hbadCat : catalogHas gBad = true)
    (hbadF : fetch gBad = none) :
    (∃ t, (extract_weather_data_multi s e active fetch res).result = .ok t) ∧
    gBad ∈ (extract_weather_data_multi s e active fetch res).warnings ∧
    (extract_weather_data_multi s e active fetch res).result =
      (extract_weather_data_multi s e (active.filter (fun p => p.1 ≠ gBad))
        fetch res).result := by
  have hmem : (gOk, true) ∈ active.filter (fun p => p.2 && catalogHas p.1) :=
    List.mem_filter.mpr ⟨hok, by simp [hokCat]⟩
  have htOk : tOk ∈ (active.filter (fun p => p.2 && catalogHas p.1)).filterMap
      (fun p => fetch p.1) :=
    List.mem_filterMap.mpr ⟨(gOk, true), hmem, hokF⟩
  have hdfs : ((active.filter (fun p => p.1 ≠ gBad)).filter
        (fun p => p.2 && catalogHas p.1)).filterMap (fun p => fetch p.1) =
      (active.filter (fun p => p.2 && catalogHas p.1)).filterMap
        (fun p => fetch p.1) := by
    rw [List.filter_comm]
    exact filterMap_filter_of_none _ _ _
      (fun p _ hp => by
        have : p.1 = gBad := by simpa using hp
        rw [this, hbadF])
  refine ⟨?_, ?_, ?_⟩
  · unfold extract_weather_data_multi
    simp only [hd, Bool.not_true, Bool.false_eq_true, if_false]
    cases hl : (active.filter (fun p => p.2 && catalogHas p.1)).filterMap
        (fun p => fetch p.1) with
    | nil => rw [hl] at htOk; exact absurd htOk (List.not_mem_nil tOk)
    | cons d rest => exact ⟨_, rfl⟩
  · unfold extract_weather_data_multi
    simp only [hd, Bool.not_true, Bool.false_eq_true, if_false]
    have hw : (gBad, true) ∈ (active.filter (fun p => p.2 && catalogHas p.1)).filter
        (fun p => (fetch p.1).isNone) :=
      List.mem_filter.mpr ⟨List.mem_filter.mpr ⟨hbad, by simp [hbadCat]⟩,
        by rw [hbadF]; rfl⟩
    exact List.mem_map.mpr ⟨(gBad, true), hw, rfl⟩
  · unfold extract_weather_data_multi
    simp only [hd, Bool.not_true, Bool.false_eq_true, if_false]
    rw [hdfs]

/-- Witness for `claim1_partial_failure`: `soil` succeeds,
`basic_weather` fails, and the run returns a table, records the warning,
and equals the run without the failed group. -/
theorem claim1_partial_failure_witness :
    (∃ t, (extract_weather_data_multi ⟨2021, 1, 1, 0⟩ ⟨2021, 1, 1, 0⟩
      [("soil", true), ("basic_weather", true)] fetchSoilOnly
      "hourly").result = .ok t) ∧
    "basic_weather" ∈ (extract_weather_data_multi ⟨2021, 1, 1, 0⟩
      ⟨2021, 1, 1, 0⟩ [("soil", true), ("basic_weather", true)]
      fetchSoilOnly "hourly").warnings ∧
    (extract_weather_data_multi ⟨2021, 1, 1, 0⟩ ⟨2021, 1, 1, 0⟩
      [("soil", true), ("basic_weather", true)] fetchSoilOnly
      "hourly").result =
      (extract_weather_data_multi ⟨2021, 1, 1, 0⟩ ⟨2021, 1, 1, 0⟩
        ([("soil", true), ("basic_weather", true)].filter
          (fun p => p.1 ≠ "basic_weather")) fetchSoilOnly "hourly").result :=
  claim1_partial_failure ⟨2021, 1, 1, 0⟩ ⟨2021, 1, 1, 0⟩
    [("soil", true), ("basic_weather", true)] fetchSoilOnly "hourly"
    "soil" "basic_weather" tinyTable (by decide) (by decide) (by decide)
    (by decide) (by decide) (by decide) (by decide)

/-- C3: outer-joining two per-group tables (tables satisfying the
TimeSeriesTable invariant of unique timestamps) on the `time` column
yields a table whose timestamp set is the union of the two timestamp
sets and whose row count is the size of that union; and after the
final `sort_values('time')` the timestamps are unique and sorted
non-decreasingly. -/
theorem claim3_outer_join_union (A B : Table)
    (hA : A.times.Nodup) (hB : B.times.Nodup) :
    (∀ t, t ∈ (mergeStep A B).times ↔ t ∈ A.times ∨ t ∈ B.times) ∧
    (mergeStep A B).rows.length =
      (A.times.toFinset ∪ B.times.toFinset).card ∧
    List.Sorted tleProp (sortTable (mergeStep A B)).times ∧
    (sortTable (mergeStep A B)).times.Nodup := by
  refine ⟨?_, ?_, sorted_times_sortTable _, ?_⟩
  · intro t
    rw [times_mergeStep]
    exact mem_unionTimes
  · have hlen : (mergeStep A B).rows.length = (mergeStep A B).times.length :=
      (List.length_map _ _).symm
    rw [hlen, times_mergeStep]
    exact length_unionTimes _ _
  · have hperm := times_sortTable_perm (mergeStep A B)
    rw [hperm.nodup_iff, times_mergeStep]
    exact nodup_unionTimes _ _

/-- Witness for `claim3_outer_join_union` on two concrete overlapping
tables. -/
theorem claim3_outer_join_union_witness :
    (∀ t, t ∈ (mergeStep ⟨["a"], [(⟨2021, 1, 1, 1⟩, [some 1]),
        (⟨2021, 1, 1, 2⟩, [some 2])]⟩
      ⟨["a", "b"], [(⟨2021, 1, 1, 2⟩, [some 20, some 200]),
        (⟨2021, 1, 1, 3⟩, [some 30, some 300])]⟩).times ↔
      t ∈ (⟨["a"], [(⟨2021, 1, 1, 1⟩, [some 1]),
        (⟨2021, 1, 1, 2⟩, [some 2])]⟩ : Table).times ∨
      t ∈ (⟨["a", "b"], [(⟨2021, 1, 1, 2⟩, [some 20, some 200]),
        (⟨2021, 1, 1, 3⟩, [some 30, some 300])]⟩ : Table).times) ∧
    (mergeStep ⟨["a"], [(⟨2021, 1, 1, 1⟩, [some 1]),
        (⟨2021, 1, 1, 2⟩, [some 2])]⟩
      ⟨["a", "b"], [(⟨2021, 1, 1, 2⟩, [some 20, some 200]),
        (⟨2021, 1, 1, 3⟩, [some 30, some 300])]⟩).rows.length =
      ((⟨["a"], [(⟨2021, 1, 1, 1⟩, [some 1]),
        (⟨2021, 1, 1, 2⟩, [some 2])]⟩ : Table).times.toFinset ∪
       (⟨["a", "b"], [(⟨2021, 1, 1, 2⟩, [some 20, some 200]),
        (⟨2021, 1, 1, 3⟩, [some 30, some 300])]⟩ : Table).times.toFinset).card ∧
    List.Sorted tleProp (sortTable (mergeStep
      ⟨["a"], [(⟨2021, 1, 1, 1⟩, [some 1]), (⟨2021, 1, 1, 2⟩, [some 2])]⟩
      ⟨["a", "b"], [(⟨2021, 1, 1, 2⟩, [some 20, some 200]),
        (⟨2021, 1, 1, 3⟩, [some 30, some 300])]⟩)).times ∧
    (sortTable (mergeStep
      ⟨["a"], [(⟨2021, 1, 1, 1⟩, [some 1]), (⟨2021, 1, 1, 2⟩, [some 2])]⟩
      ⟨["a", "b"], [(⟨2021, 1, 1, 2⟩, [some 20, some 200]),
        (⟨2021, 1, 1, 3⟩, [some 30, some 300])]⟩)).times.Nodup :=
  claim3_outer_join_union
    ⟨["a"], [(⟨2021, 1, 1, 1⟩, [some 1]), (⟨2021, 1, 1, 2⟩, [some 2])]⟩
    ⟨["a", "b"], [(⟨2021, 1, 1, 2⟩, [some 20, some 200]),
      (⟨2021, 1, 1, 3⟩, [some 30, some 300])]⟩
    (by decide) (by decide)

/-- C10: `get_daily_summary` mutates its caller's frame — for every
input table with a `time` column and no pre-existing `date` column, the
caller's column list after the call has gained a `date` column (the
in-place `df['date'] = ...` assignment executed before the summary is
built), so the input table is not left unchanged; and the returned
summary is keyed by a `date` column, not a `time` column. -/
theorem claim10_daily_summary_mutates (df : Table)
    (hd : df.cols.contains "date" = false) :
    (get_daily_summary df).1 ≠ "time" :: df.cols ∧
    "date" ∈ (get_daily_summary df).1 ∧
    (get_daily_summary df).2.1 = "date" ∧
    (get_daily_summary df).2.1 ≠ "time" := by
  unfold get_daily_summary
  refine ⟨?_, ?_, rfl, ?_⟩
  · simp only [hd, Bool.false_eq_true, if_false]
    intro h
    have hlen := congrArg List.length h
    simp at hlen
  · simp [hd]
    exact em _
  · show ("date" : String) ≠ "time"
    decide

/-- Witness for `claim10_daily_summary_mutates` on a concrete hourly
frame. -/
theorem claim10_daily_summary_mutates_witness :
    (get_daily_summary tinyTable).1 ≠ "time" :: tinyTable.cols ∧
    "date" ∈ (get_daily_summary tinyTable).1 ∧
    (get_daily_summary tinyTable).2.1 = "date" ∧
    (get_daily_summary tinyTable).2.1 ≠ "time" :=
  claim10_daily_summary_mutates tinyTable (by decide)

theorem times_resampleAgg (bucket : Timestamp → Timestamp)
    (stats : List (String × (List (Option ℚ) → Option ℚ)))
    (excl : List String) (T : Table) :
    (resampleAgg bucket stats excl T).times =
      List.insertionSort tleProp ((T.rows.map (fun r => bucket r.1)).dedup) := by
  simp only [resampleAgg, Table.times, List.map_map]
  exact List.map_id _

theorem mem_times_resampleAgg {bucket stats excl T} {t : Timestamp} :
    t ∈ (resampleAgg bucket stats excl T).times ↔
      t ∈ T.rows.map (fun r => bucket r.1) := by
  rw [times_resampleAgg, (List.perm_insertionSort _ _).mem_iff, List.mem_dedup]

theorem sorted_times_resampleAgg (bucket stats excl T) :
    List.Sorted tleProp (resampleAgg bucket stats excl T).times := by
  rw [times_resampleAgg]
  exact List.sorted_insertionSort _ _

theorem nodup_times_resampleAgg (bucket stats excl T) :
    (resampleAgg bucket stats excl T).times.Nodup := by
  rw [times_resampleAgg]
  exact ((List.perm_insertionSort _ _).nodup_iff).mpr (List.nodup_dedup _)

theorem mem_rows_resampleAgg {bucket stats excl T}
    {r : Timestamp × List (Option ℚ)}
    (h : r ∈ (resampleAgg bucket stats excl T).rows) :
    r.1 ∈ T.rows.map (fun s => bucket s.1) ∧
    r.2 = (T.cols.filter (fun c => !excl.contains c)).flatMap
      (fun c => stats.map (fun s => s.2 (bucketVals T bucket r.1 c))) := by
  simp only [resampleAgg] at h
  rcases List.mem_map.mp h with ⟨b, hb, hr⟩
  have h1 : r.1 = b := by rw [← hr]
  have h2 := congrArg Prod.snd hr
  constructor
  · rw [h1]
    exact List.mem_dedup.mp ((List.perm_insertionSort _ _).mem_iff.mp hb)
  · rw [← h2, h1]

theorem stat_names_eq (c : String) :
    [c ++ "_" ++ "mean", c ++ "_" ++ "min", c ++ "_" ++ "max"] =
      [c ++ "_mean", c ++ "_min", c ++ "_max"] := by
  rw [String.append_assoc, String.append_assoc, String.append_assoc]
  rw [show "_" ++ "mean" = "_mean" by decide, show "_" ++ "min" = "_min" by decide,
    show "_" ++ "max" = "_max" by decide]

/-- C7: daily resampling groups the merged hourly table by calendar
date; for every non-timestamp column it emits mean, min and max rounded
to 2 decimal places, named `{var}_mean`, `{var}_min`, `{var}_max`, with
one row per distinct calendar date, in ascending date order with unique
date keys; and the table [10, 20, 30] on a single calendar date yields
mean 20, min 10, max 30 for that date. -/
theorem claim7_daily_resampling :
    (∀ T : Table,
      (resample_to_daily T).cols =
        (T.cols.filter (fun c => !(["date"].contains c))).flatMap
          (fun c => [c ++ "_mean", c ++ "_min", c ++ "_max"]) ∧
      (∀ t, t ∈ (resample_to_daily T).times ↔
        t ∈ T.rows.map (fun r => dateOf r.1)) ∧
      List.Sorted tleProp (resample_to_daily T).times ∧
      (resample_to_daily T).times.Nodup ∧
      (∀ r ∈ (resample_to_daily T).rows, r.1.hour = 0 ∧
        r.2 = (T.cols.filter (fun c => !(["date"].contains c))).flatMap
          (fun c => [aggMean (bucketVals T dateOf r.1 c),
                     aggMin (bucketVals T dateOf r.1 c),
                     aggMax (bucketVals T dateOf r.1 c)]))) ∧
    resample_to_daily hoursTable =
      ⟨["temperature_2m_mean", "temperature_2m_min", "temperature_2m_max"],
       [(⟨2021, 6, 1, 0⟩, [some 20, some 10, some 30])]⟩ := by
  constructor
  · intro T
    refine ⟨?_, fun t => mem_times_resampleAgg, sorted_times_resampleAgg _ _ _ _,
      nodup_times_resampleAgg _ _ _ _, ?_⟩
    · show ((T.cols.filter (fun c => !(["date"].contains c))).flatMap
        (fun c => stats3.map (fun s => c ++ "_" ++ s.1))) = _
      congr 1
      funext c
      simp only [stats3, List.map_cons, List.map_nil]
      exact stat_names_eq c
    · intro r hr
      have h := mem_rows_resampleAgg hr
      constructor
      · rcases List.mem_map.mp h.1 with ⟨s, _, hs⟩
        rw [← hs]
        rfl
      · rw [h.2]
        rfl
  · have hb : List.insertionSort tleProp
        ((hoursTable.rows.map (fun r => dateOf r.1)).dedup) =
        [⟨2021, 6, 1, 0⟩] := by decide
    have hf : hoursTable.cols.filter (fun c => !(["date"].contains c)) =
        ["temperature_2m"] := by decide
    have hbv : bucketVals hoursTable dateOf ⟨2021, 6, 1, 0⟩ "temperature_2m" =
        [some 10, some 20, some 30] := by decide
    have hmean : aggMean [some (10:ℚ), some 20, some 30] = some 20 := by
      simp only [aggMean, presentVals, List.filterMap_cons, id_eq,
        List.filterMap_nil, List.length_cons, List.length_nil, List.sum_cons,
        List.sum_nil]
      norm_num
      exact round2_eq2 _ _ 2000 (by norm_num) (by norm_num)
    have hmin : aggMin [some (10:ℚ), some 20, some 30] = some 10 := by
      simp only [aggMin, presentVals, List.filterMap_cons, id_eq,
        List.filterMap_nil, List.foldl_cons, List.foldl_nil]
      norm_num
      exact round2_eq2 _ _ 1000 (by norm_num) (by norm_num)
    have hmax : aggMax [some (10:ℚ), some 20, some 30] = some 30 := by
      simp only [aggMax, presentVals, List.filterMap_cons, id_eq,
        List.filterMap_nil, List.foldl_cons, List.foldl_nil]
      norm_num
      exact round2_eq2 _ _ 3000 (by norm_num) (by norm_num)
    simp only [resample_to_daily, resampleAgg, stats3, hb, hf]
    simp only [List.flatMap_cons, List.flatMap_nil, List.map_cons, List.map_nil,
      List.append_nil, List.cons_append, List.nil_append, hbv, hmean, hmin, hmax]
    decide

/-- Witness for `claim7_daily_resampling`: the emitted scenario row has
a midnight (date) key and carries exactly the three statistics of its
bucket. -/
theorem claim7_daily_resampling_witness :
    (⟨2021, 6, 1, 0⟩ : Timestamp).hour = 0 ∧
    ([some 20, some 10, some 30] : List (Option ℚ)) =
      (hoursTable.cols.filter (fun c => !(["date"].contains c))).flatMap
        (fun c => [aggMean (bucketVals hoursTable dateOf ⟨2021, 6, 1, 0⟩ c),
                   aggMin (bucketVals hoursTable dateOf ⟨2021, 6, 1, 0⟩ c),
                   aggMax (bucketVals hoursTable dateOf ⟨2021, 6, 1, 0⟩ c)]) := by
  have h := claim7_daily_resampling
  exact (h.1 hoursTable).2.2.2.2 (⟨2021, 6, 1, 0⟩, [some 20, some 10, some 30])
    (by rw [h.2]; exact List.mem_singleton.mpr rfl)

theorem monthOf_mem_hoursOfMonth {y : Int} {m D : Nat} {t : Timestamp}
    (h : t ∈ hoursOfMonth y m D) : monthOf t = ⟨y, m, 1, 0⟩ := by
  rcases List.mem_flatMap.mp h with ⟨d, _, hd⟩
  rcases List.mem_map.mp hd with ⟨hh, _, hht⟩
  rw [← hht]
  rfl

theorem length_hoursOfMonth (y : Int) (m D : Nat) :
    (hoursOfMonth y m D).length = D * 24 := by
  rw [hoursOfMonth, List.length_flatMap]
  have : List.map (List.length ∘ fun d =>
      (List.range 24).map (fun h => (⟨y, m, d + 1, h⟩ : Timestamp)))
      (List.range D) = List.map (fun _ => 24) (List.range D) := by
    apply List.map_congr_left
    intro d _
    simp
  rw [this, List.map_const', List.sum_replicate, List.length_range,
    smul_eq_mul]

theorem dedup_replicate_pos {α : Type} [DecidableEq α] (n : Nat) (h : n ≠ 0)
    (b : α) : (List.replicate n b).dedup = [b] := by
  induction n with
  | zero => exact absurd rfl h
  | succ k ih =>
    cases hk : k with
    | zero => simp
    | succ j =>
      rw [List.replicate_succ, List.dedup_cons_of_mem
        (List.mem_replicate.mpr ⟨by omega, rfl⟩)]
      rw [← hk]
      exact ih (by omega)

theorem filterMap_eq_map_of_forall {α β : Type} (f : α → Option β)
    (g : α → β) (l : List α) (h : ∀ a ∈ l, f a = some (g a)) :
    l.filterMap f = l.map g := by
  induction l with
  | nil => rfl
  | cons a as ih =>
    rw [List.filterMap_cons, h a (List.mem_cons_self a as), List.map_cons,
      ih (fun x hx => h x (List.mem_cons_of_mem a hx))]

theorem presentVals_replicate (n : Nat) (v : ℚ) :
    presentVals (List.replicate n (some v)) = List.replicate n v := by
  induction n with
  | zero => rfl
  | succ k ih =>
    rw [List.replicate_succ, List.replicate_succ, presentVals,
      List.filterMap_cons]
    simp only [id_eq]
    rw [← presentVals, ih]

theorem foldl_min_replicate (k : Nat) (v : ℚ) :
    (List.replicate k v).foldl min v = v := by
  induction k with
  | zero => rfl
  | succ j ih => rw [List.replicate_succ, List.foldl_cons, min_self, ih]

theorem foldl_max_replicate (k : Nat) (v : ℚ) :
    (List.replicate k v).foldl max v = v := by
  induction k with
  | zero => rfl
  | succ j ih => rw [List.replicate_succ, List.foldl_cons, max_self, ih]

theorem aggMean_replicate (n : Nat) (v : ℚ) (h : n ≠ 0) :
    aggMean (List.replicate n (some v)) = some (round2 v) := by
  rw [aggMean, presentVals_replicate]
  simp only [List.sum_replicate, List.length_replicate, nsmul_eq_mul]
  rw [if_neg h]
  congr 1
  rw [mul_comm, mul_div_assoc, div_self (by exact_mod_cast h), mul_one]

theorem aggMin_replicate (n : Nat) (v : ℚ) (h : n ≠ 0) :
    aggMin (List.replicate n (some v)) = some (round2 v) := by
  rw [aggMin, presentVals_replicate]
  cases hn : n with
  | zero => exact absurd hn h
  | succ k =>
    rw [List.replicate_succ]
    simp only []
    rw [foldl_min_replicate]

theorem aggMax_replicate (n : Nat) (v : ℚ) (h : n ≠ 0) :
    aggMax (List.replicate n (some v)) = some (round2 v) := by
  rw [aggMax, presentVals_replicate]
  cases hn : n with
  | zero => exact absurd hn h
  | succ k =>
    rw [List.replicate_succ]
    simp only []
    rw [foldl_max_replicate]

theorem aggSum_replicate (n : Nat) (v : ℚ) :
    aggSum (List.replicate n (some v)) = some (round2 ((n : ℚ) * v)) := by
  rw [aggSum, presentVals_replicate]
  simp [List.sum_replicate, nsmul_eq_mul]

theorem stat_names4_eq (c : String) :
    [c ++ "_" ++ "mean", c ++ "_" ++ "min", c ++ "_" ++ "max",
      c ++ "_" ++ "sum"] =
      [c ++ "_mean", c ++ "_min", c ++ "_max", c ++ "_sum"] := by
  rw [String.append_assoc, String.append_assoc, String.append_assoc,
    String.append_assoc]
  rw [show "_" ++ "mean" = "_mean" by decide, show "_" ++ "min" = "_min" by decide,
    show "_" ++ "max" = "_max" by decide, show "_" ++ "sum" = "_sum" by decide]

/-- C8: monthly resampling groups by calendar year-month; for every
non-timestamp column it emits mean, min, max and sum rounded to 2
decimal places, named `{var}_mean`, `{var}_min`, `{var}_max`,
`{var}_sum`, with one row per distinct month, keys unique, ascending,
each key being the first instant of its month (day 1, hour 0); and over
a `D`-day month filled with one identical value `v` at each of its
`24 * D` hours, the emitted sum is `v * 24 * D` (within rounding). -/
theorem claim8_monthly_resampling :
    (∀ T : Table,
      (resample_to_monthly T).cols =
        (T.cols.filter (fun c => !(["date", "year_month"].contains c))).flatMap
          (fun c => [c ++ "_mean", c ++ "_min", c ++ "_max", c ++ "_sum"]) ∧
      (∀ t, t ∈ (resample_to_monthly T).times ↔
        t ∈ T.rows.map (fun r => monthOf r.1)) ∧
      List.Sorted tleProp (resample_to_monthly T).times ∧
      (resample_to_monthly T).times.Nodup ∧
      (∀ r ∈ (resample_to_monthly T).rows, r.1.day = 1 ∧ r.1.hour = 0 ∧
        r.2 = (T.cols.filter (fun c =>
            !(["date", "year_month"].contains c))).flatMap
          (fun c => [aggMean (bucketVals T monthOf r.1 c),
                     aggMin (bucketVals T monthOf r.1 c),
                     aggMax (bucketVals T monthOf r.1 c),
                     aggSum (bucketVals T monthOf r.1 c)]))) ∧
    (∀ (y : Int) (m D : Nat) (v : ℚ), D ≠ 0 →
      resample_to_monthly (constMonthTable y m D v) =
        ⟨["x_mean", "x_min", "x_max", "x_sum"],
         [(⟨y, m, 1, 0⟩, [some (round2 v), some (round2 v), some (round2 v),
            some (round2 (v * 24 * D))])]⟩) := by
  constructor
  · intro T
    refine ⟨?_, fun t => mem_times_resampleAgg, sorted_times_resampleAgg _ _ _ _,
      nodup_times_resampleAgg _ _ _ _, ?_⟩
    · show ((T.cols.filter (fun c =>
          !(["date", "year_month"].contains c))).flatMap
        (fun c => stats4.map (fun s => c ++ "_" ++ s.1))) = _
      congr 1
      funext c
      simp only [stats4, List.map_cons, List.map_nil]
      exact stat_names4_eq c
    · intro r hr
      have h := mem_rows_resampleAgg hr
      rcases List.mem_map.mp h.1 with ⟨s, _, hs⟩
      refine ⟨by rw [← hs]; rfl, by rw [← hs]; rfl, ?_⟩
      rw [h.2]
      rfl
  · intro y m D v hD
    have hn : D * 24 ≠ 0 := by omega
    have hrows : (constMonthTable y m D v).rows.map (fun r => monthOf r.1) =
        List.replicate (D * 24) ⟨y, m, 1, 0⟩ := by
      show ((hoursOfMonth y m D).map (fun t => (t, [some v]))).map
        (fun r => monthOf r.1) = _
      rw [List.map_map]
      have : (hoursOfMonth y m D).map ((fun r : Timestamp × List (Option ℚ) =>
          monthOf r.1) ∘ (fun t => (t, [some v]))) =
          (hoursOfMonth y m D).map (fun _ => (⟨y, m, 1, 0⟩ : Timestamp)) :=
        List.map_congr_left (fun t ht => monthOf_mem_hoursOfMonth ht)
      rw [this, List.map_const', length_hoursOfMonth]
    have hbuckets : List.insertionSort tleProp
        (((constMonthTable y m D v).rows.map (fun r => monthOf r.1)).dedup) =
        [⟨y, m, 1, 0⟩] := by
      rw [hrows, dedup_replicate_pos _ hn]
      simp [List.insertionSort, List.orderedInsert]
    have hbv : bucketVals (constMonthTable y m D v) monthOf ⟨y, m, 1, 0⟩ "x" =
        List.replicate (D * 24) (some v) := by
      show ((hoursOfMonth y m D).map (fun t => (t, [some v]))).filterMap _ = _
      rw [List.filterMap_map]
      have : (hoursOfMonth y m D).filterMap ((fun r :
            Timestamp × List (Option ℚ) =>
          if monthOf r.1 = ⟨y, m, 1, 0⟩ then
            some (cellVal (constMonthTable y m D v).cols r.2 "x") else none) ∘
          (fun t => (t, [some v]))) =
          (hoursOfMonth y m D).map (fun _ => some v) := by
        apply filterMap_eq_map_of_forall
        intro t ht
        show (if monthOf t = ⟨y, m, 1, 0⟩ then
          some (cellVal ["x"] [some v] "x") else none) = some (some v)
        rw [if_pos (monthOf_mem_hoursOfMonth ht)]
        rfl
      rw [this, List.map_const', length_hoursOfMonth]
    simp only [resample_to_monthly, resampleAgg, stats4, hbuckets]
    have hf : (constMonthTable y m D v).cols.filter
        (fun c => !(["date", "year_month"].contains c)) = ["x"] := rfl
    simp only [hf, List.flatMap_cons, List.flatMap_nil, List.map_cons,
      List.map_nil, List.append_nil, hbv,
      aggMean_replicate _ _ hn, aggMin_replicate _ _ hn,
      aggMax_replicate _ _ hn, aggSum_replicate]
    have hcast : ((D * 24 : Nat) : ℚ) * v = v * 24 * D := by
      push_cast
      ring
    rw [hcast]
    congr 1

/-- Witness for `claim8_monthly_resampling`: a 30-day month of constant
value 5 resamples to a single first-of-month row whose sum is
5 × 24 × 30 (within rounding). -/
theorem claim8_monthly_resampling_witness :
    resample_to_monthly (constMonthTable 2021 4 30 5) =
      ⟨["x_mean", "x_min", "x_max", "x_sum"],
       [(⟨2021, 4, 1, 0⟩, [some (round2 5), some (round2 5), some (round2 5),
          some (round2 (5 * 24 * 30))])]⟩ :=
  claim8_monthly_resampling.2 2021 4 30 5 (by decide)

theorem resample_missTable_eq :
    resample_to_monthly missTable =
      ⟨["x_mean", "x_min", "x_max", "x_sum",
        "y_mean", "y_min", "y_max", "y_sum"],
       [(⟨2021, 1, 1, 0⟩,
         [some 6, some 5, some 7, some 12, none, none, none, some 0])]⟩ := by
  have hb : List.insertionSort tleProp
      ((missTable.rows.map (fun r => monthOf r.1)).dedup) =
      [⟨2021, 1, 1, 0⟩] := by decide
  have hf : missTable.cols.filter
      (fun c => !(["date", "year_month"].contains c)) = ["x", "y"] := by decide
  have hbvx : bucketVals missTable monthOf ⟨2021, 1, 1, 0⟩ "x" =
      [some 5, some 7] := by decide
  have hbvy : bucketVals missTable monthOf ⟨2021, 1, 1, 0⟩ "y" =
      [none, none] := by decide
  have hmeanx : aggMean [some (5:ℚ), some 7] = some 6 := by
    simp only [aggMean, presentVals, List.filterMap_cons, id_eq,
      List.filterMap_nil, List.length_cons, List.length_nil, List.sum_cons,
      List.sum_nil]
    norm_num
    exact round2_eq2 _ _ 600 (by norm_num) (by norm_num)
  have hminx : aggMin [some (5:ℚ), some 7] = some 5 := by
    simp only [aggMin, presentVals, List.filterMap_cons, id_eq,
      List.filterMap_nil, List.foldl_cons, List.foldl_nil]
    rw [show min (5:ℚ) 7 = 5 by norm_num]
    rw [round2_eq2 5 5 500 (by norm_num) (by norm_num)]
  have hmaxx : aggMax [some (5:ℚ), some 7] = some 7 := by
    simp only [aggMax, presentVals, List.filterMap_cons, id_eq,
      List.filterMap_nil, List.foldl_cons, List.foldl_nil]
    rw [show max (5:ℚ) 7 = 7 by norm_num]
    rw [round2_eq2 7 7 700 (by norm_num) (by norm_num)]
  have hsumx : aggSum [some (5:ℚ), some 7] = some 12 := by
    simp only [aggSum, presentVals, List.filterMap_cons, id_eq,
      List.filterMap_nil, List.sum_cons, List.sum_nil]
    norm_num
    exact round2_eq2 _ _ 1200 (by norm_num) (by norm_num)
  have hmeany : aggMean [(none : Option ℚ), none] = none := by decide
  have hminy : aggMin [(none : Option ℚ), none] = none := by decide
  have hmaxy : aggMax [(none : Option ℚ), none] = none := by decide
  have hsumy : aggSum [(none : Option ℚ), none] = some 0 := by
    simp only [aggSum, presentVals, List.filterMap_cons, id_eq,
      List.filterMap_nil, List.sum_nil]
    rw [round2_eq2 0 0 0 (by norm_num) (by norm_num)]
  simp only [resample_to_monthly, resampleAgg, stats4, hb, hf]
  simp only [List.flatMap_cons, List.flatMap_nil, List.map_cons, List.map_nil,
    List.append_nil, List.cons_append, List.nil_append, hbvx, hbvy,
    hmeanx, hminx, hmaxx, hsumx, hmeany, hminy, hmaxy, hsumy]
  decide

/-- Counterexample to C5: in a bucket where column `y` is entirely
missing, monthly resampling emits the computed zero `0` — not the
missing-value marker — for the `y_sum` statistic (pandas `sum` of an
all-NaN group is 0 under the default `min_count=0`), while `y_mean` is
the missing marker as claimed. -/
theorem claim5_all_missing_cex :
    Table.rowVal (resample_to_monthly missTable) ⟨2021, 1, 1, 0⟩ "y_sum" =
      some 0 ∧
    ¬ Table.rowVal (resample_to_monthly missTable) ⟨2021, 1, 1, 0⟩ "y_sum" =
      none ∧
    Table.rowVal (resample_to_monthly missTable) ⟨2021, 1, 1, 0⟩ "y_mean" =
      none := by
  rw [resample_missTable_eq]
  refine ⟨by decide, by decide, by decide⟩

/-- C5 as amended: for a bucket in which a variable column is entirely
missing, the mean, min and max statistics are emitted as the
missing-value marker, but the sum statistic (present in the monthly and
daily-summary statistic sets) is emitted as the computed zero 0; the
bucket's emitted row carries exactly these statistics. -/
theorem claim5_amended_all_missing (T : Table) (b : Timestamp) (c : String)
    (hb : b ∈ (resample_to_monthly T).times)
    (hmiss : presentVals (bucketVals T monthOf b c) = []) :
    aggMean (bucketVals T monthOf b c) = none ∧
    aggMin (bucketVals T monthOf b c) = none ∧
    aggMax (bucketVals T monthOf b c) = none ∧
    aggSum (bucketVals T monthOf b c) = some 0 ∧
    ∃ r ∈ (resample_to_monthly T).rows, r.1 = b ∧
      r.2 = (T.cols.filter (fun c' =>
          !(["date", "year_month"].contains c'))).flatMap
        (fun c' => [aggMean (bucketVals T monthOf b c'),
                    aggMin (bucketVals T monthOf b c'),
                    aggMax (bucketVals T monthOf b c'),
                    aggSum (bucketVals T monthOf b c')]) := by
  refine ⟨?_, ?_, ?_, ?_, ?_⟩
  · show (if (presentVals (bucketVals T monthOf b c)).length = 0 then none
      else _) = none
    rw [hmiss]
    rfl
  · rw [aggMin, hmiss]
  · rw [aggMax, hmiss]
  · rw [aggSum, hmiss]
    rw [show List.sum ([] : List ℚ) = 0 from rfl,
      round2_eq2 0 0 0 (by norm_num) (by norm_num)]
  · rcases List.mem_map.mp hb with ⟨r, hr, hrb⟩
    refine ⟨r, hr, hrb, ?_⟩
    have h := mem_rows_resampleAgg hr
    rw [h.2, hrb]
    rfl

/-- Witness for `claim5_amended_all_missing` at the concrete all-missing
column `y` of `missTable`. -/
theorem claim5_amended_all_missing_witness :
    aggMean (bucketVals missTable monthOf ⟨2021, 1, 1, 0⟩ "y") = none ∧
    aggMin (bucketVals missTable monthOf ⟨2021, 1, 1, 0⟩ "y") = none ∧
    aggMax (bucketVals missTable monthOf ⟨2021, 1, 1, 0⟩ "y") = none ∧
    aggSum (bucketVals missTable monthOf ⟨2021, 1, 1, 0⟩ "y") = some 0 ∧
    ∃ r ∈ (resample_to_monthly missTable).rows, r.1 = ⟨2021, 1, 1, 0⟩ ∧
      r.2 = (missTable.cols.filter (fun c' =>
          !(["date", "year_month"].contains c'))).flatMap
        (fun c' => [aggMean (bucketVals missTable monthOf ⟨2021, 1, 1, 0⟩ c'),
                    aggMin (bucketVals missTable monthOf ⟨2021, 1, 1, 0⟩ c'),
                    aggMax (bucketVals missTable monthOf ⟨2021, 1, 1, 0⟩ c'),
                    aggSum (bucketVals missTable monthOf ⟨2021, 1, 1, 0⟩ c')]) :=
  claim5_amended_all_missing missTable ⟨2021, 1, 1, 0⟩ "y" (by decide)
    (by decide)

theorem endsDup_append (c : String) : endsDup (c ++ "_dup") = true := by
  unfold endsDup
  rw [String.data_append]
  rw [show ("_dup" : String).data = ['_', 'd', 'u', 'p'] from rfl]
  simp [List.reverse_append]

theorem idxOf?_eq_none_iff (c : String) (cols : List String) :
    idxOf? c cols = none ↔ c ∉ cols := by
  induction cols with
  | nil => simp [idxOf?]
  | cons d ds ih =>
    rw [idxOf?]
    by_cases hd : d = c
    · simp [hd]
    · rw [if_neg hd, Option.map_eq_none', ih, List.mem_cons]
      constructor
      · intro hh hmem
        rcases hmem with h1 | h2
        · exact hd h1.symm
        · exact hh h2
      · intro hh h2
        exact hh (Or.inr h2)

theorem cellVal_cons (d : String) (ds : List String) (v : Option ℚ)
    (vs : List (Option ℚ)) (c : String) :
    cellVal (d :: ds) (v :: vs) c = if d = c then v else cellVal ds vs c := by
  by_cases hd : d = c
  · simp [cellVal, idxOf?, hd]
  · cases h : idxOf? c ds <;> simp [cellVal, idxOf?, hd, h]

theorem cellVal_not_mem (cols : List String) (vals : List (Option ℚ))
    (c : String) (h : ¬ c ∈ cols) : cellVal cols vals c = none := by
  unfold cellVal
  rw [(idxOf?_eq_none_iff c cols).mpr h]

theorem cellVal_map (cols : List String) (g : String → Option ℚ) (c : String) :
    cellVal cols (cols.map g) c = if c ∈ cols then g c else none := by
  induction cols with
  | nil => simp [cellVal, idxOf?]
  | cons d ds ih =>
    rw [List.map_cons, cellVal_cons]
    by_cases hd : d = c
    · rw [if_pos hd, hd, if_pos (List.mem_cons_self c ds)]
    · rw [if_neg hd, ih]
      by_cases hm : c ∈ ds
      · rw [if_pos hm, if_pos (List.mem_cons_of_mem d hm)]
      · rw [if_neg hm, if_neg (fun hmem => by
          rcases List.mem_cons.mp hmem with h1 | h2
          · exact hd h1.symm
          · exact hm h2)]

theorem rowVal_none_of_not_mem_cols (T : Table) (t : Timestamp) (c : String)
    (h : ¬ c ∈ T.cols) : T.rowVal t c = none := by
  unfold Table.rowVal
  cases hf : T.rows.find? (fun r => decide (r.1 = t)) with
  | none => rfl
  | some r => exact cellVal_not_mem T.cols r.2 c h

theorem find?_key_map (ts : List Timestamp)
    (f : Timestamp → List (Option ℚ)) (t : Timestamp) :
    (ts.map (fun s => (s, f s))).find? (fun r => decide (r.1 = t)) =
      (ts.find? (fun s => decide (s = t))).map (fun s => (s, f s)) := by
  induction ts with
  | nil => rfl
  | cons s ss ih =>
    simp only [List.map_cons, List.find?_cons]
    cases hs : decide (s = t) with
    | true => simp
    | false => simp only [ih]

theorem find?_self_of_mem {t : Timestamp} {ts : List Timestamp}
    (h : t ∈ ts) : ts.find? (fun s => decide (s = t)) = some t := by
  induction ts with
  | nil => exact absurd h (List.not_mem_nil t)
  | cons s ss ih =>
    rw [List.find?_cons]
    by_cases hs : s = t
    · simp [hs]
    · rw [decide_eq_false hs]
      rcases List.mem_cons.mp h with h1 | h2
      · exact absurd h1.symm hs
      · exact ih h2

/-- Self-merge normal form: when no column of `T` already carries the
`_dup` suffix, outer-joining `T` with itself and dropping the suffixed
duplicates keeps exactly the original columns with the accumulator's
(left) values — the incoming copies are all suffixed and dropped. -/
theorem mergeStep_self_eq (T : Table)
    (hC : ∀ c ∈ T.cols, endsDup c = false) :
    mergeStep T T = ⟨T.cols, (unionTimes T.times T.times).map
      (fun t => (t, T.cols.map (fun c => T.rowVal t c)))⟩ := by
  have hmap : T.cols.map (fun c =>
      if T.cols.contains c then c ++ "_dup" else c) =
      T.cols.map (fun c => c ++ "_dup") :=
    List.map_congr_left (fun c hc => by simp [hc])
  have hcols : (mergeStep T T).cols = T.cols := by
    show ((T.cols ++ T.cols.map (fun c =>
      if T.cols.contains c then c ++ "_dup" else c)).filter
      (fun c => !endsDup c)) = T.cols
    rw [hmap, List.filter_append]
    rw [List.filter_eq_self.mpr (fun c hc => by rw [hC c hc]; rfl)]
    rw [List.filter_eq_nil_iff.mpr (fun c hc => by
      rcases List.mem_map.mp hc with ⟨d, _, hd⟩
      rw [← hd, endsDup_append]
      simp)]
    exact List.append_nil T.cols
  have hrow : ∀ t : Timestamp,
      (((T.cols ++ T.cols.map (fun c =>
          if T.cols.contains c then c ++ "_dup" else c)).zip
        (T.cols.map (fun c => T.rowVal t c) ++
          T.cols.map (fun c => T.rowVal t c))).filter
        (fun p => !endsDup p.1)).map (fun p => p.2) =
      T.cols.map (fun c => T.rowVal t c) := by
    intro t
    rw [hmap, List.zip_append (by simp), List.filter_append]
    rw [List.filter_eq_self.mpr (fun p hp => by
      rw [hC p.1 (List.of_mem_zip hp).1]
      rfl)]
    rw [List.filter_eq_nil_iff.mpr (fun p hp => by
      rcases List.mem_map.mp (List.of_mem_zip hp).1 with ⟨d, _, hd⟩
      rw [← hd, endsDup_append]
      simp)]
    rw [List.append_nil]
    exact List.map_snd_zip _ _ (by simp)
  show dropDup (mergeRaw T T) = _
  unfold dropDup mergeRaw
  refine congrArg₂ Table.mk hcols ?_
  show ((unionTimes T.times T.times).map _).map _ = _
  rw [List.map_map]
  exact List.map_congr_left (fun t _ => by
    show (t, _) = (t, _)
    exact congrArg (Prod.mk t) (hrow t))

theorem rowVal_none_of_not_mem_times (T : Table) (t : Timestamp) (c : String)
    (h : ¬ t ∈ T.times) : T.rowVal t c = none := by
  have hfind : T.rows.find? (fun r => decide (r.1 = t)) = none :=
    List.find?_eq_none.mpr (fun r hr hdec =>
      h (of_decide_eq_true hdec ▸ List.mem_map_of_mem (fun r => r.1) hr))
  unfold Table.rowVal
  rw [hfind]

theorem rowVal_keyed_map (cols : List String)
    (g : Timestamp → String → Option ℚ) (ts : List Timestamp) (t : Timestamp)
    (c : String) (ht : t ∈ ts) :
    Table.rowVal ⟨cols, ts.map (fun s => (s, cols.map (fun d => g s d)))⟩ t c =
      if c ∈ cols then g t c else none := by
  unfold Table.rowVal
  rw [find?_key_map, find?_self_of_mem ht]
  exact cellVal_map cols (g t) c

/-- C6: merging a table with itself (unique timestamps, no column
already carrying the `_dup` suffix) keeps the row count, keeps exactly
the original column names, leaves no `_dup`-suffixed column in the
output, and keeps the existing (accumulator) column values at every
time and column — the incoming duplicates are discarded,
first-writer-wins. -/
theorem claim6_self_merge (T : Table) (hN : T.times.Nodup)
    (hC : ∀ c ∈ T.cols, endsDup c = false) :
    (mergeStep T T).rows.length = T.rows.length ∧
    (mergeStep T T).cols = T.cols ∧
    (∀ c ∈ (mergeStep T T).cols, endsDup c = false) ∧
    (∀ t c, (mergeStep T T).rowVal t c = T.rowVal t c) := by
  have hEq := mergeStep_self_eq T hC
  have hlen : (unionTimes T.times T.times).length = T.rows.length := by
    rw [length_unionTimes, Finset.union_self, List.card_toFinset,
      List.dedup_eq_self.mpr hN, Table.times, List.length_map]
  refine ⟨?_, ?_, ?_, ?_⟩
  · rw [hEq]
    show ((unionTimes T.times T.times).map _).length = _
    rw [List.length_map]
    exact hlen
  · rw [hEq]
  · rw [hEq]
    exact hC
  · intro t c
    rw [hEq]
    by_cases ht : t ∈ unionTimes T.times T.times
    · rw [rowVal_keyed_map T.cols (fun s d => T.rowVal s d) _ t c ht]
      by_cases hc : c ∈ T.cols
      · rw [if_pos hc]
      · rw [if_neg hc, rowVal_none_of_not_mem_cols T t c hc]
    · have ht' : ¬ t ∈ T.times := fun hh => ht (mem_unionTimes.mpr (Or.inl hh))
      have htimesEq : (⟨T.cols, (unionTimes T.times T.times).map
          (fun s => (s, T.cols.map (fun d => T.rowVal s d)))⟩ : Table).times =
          unionTimes T.times T.times := by
        simp only [Table.times, List.map_map]
        exact List.map_id _
      rw [rowVal_none_of_not_mem_times _ t c (fun hh => ht (htimesEq ▸ hh)),
        rowVal_none_of_not_mem_times T t c ht']

/-- Witness for `claim6_self_merge`: self-merging a concrete 2-row
table keeps row count, columns and values. -/
theorem claim6_self_merge_witness :
    (mergeStep ⟨["a"], [(⟨2021, 1, 1, 1⟩, [some 1]),
        (⟨2021, 1, 1, 2⟩, [some 2])]⟩
      ⟨["a"], [(⟨2021, 1, 1, 1⟩, [some 1]),
        (⟨2021, 1, 1, 2⟩, [some 2])]⟩).rows.length =
      (⟨["a"], [(⟨2021, 1, 1, 1⟩, [some 1]),
        (⟨2021, 1, 1, 2⟩, [some 2])]⟩ : Table).rows.length ∧
    (mergeStep ⟨["a"], [(⟨2021, 1, 1, 1⟩, [some 1]),
        (⟨2021, 1, 1, 2⟩, [some 2])]⟩
      ⟨["a"], [(⟨2021, 1, 1, 1⟩, [some 1]),
        (⟨2021, 1, 1, 2⟩, [some 2])]⟩).cols =
      (⟨["a"], [(⟨2021, 1, 1, 1⟩, [some 1]),
        (⟨2021, 1, 1, 2⟩, [some 2])]⟩ : Table).cols ∧
    (∀ c ∈ (mergeStep ⟨["a"], [(⟨2021, 1, 1, 1⟩, [some 1]),
        (⟨2021, 1, 1, 2⟩, [some 2])]⟩
      ⟨["a"], [(⟨2021, 1, 1, 1⟩, [some 1]),
        (⟨2021, 1, 1, 2⟩, [some 2])]⟩).cols, endsDup c = false) ∧
    (∀ t c, (mergeStep ⟨["a"], [(⟨2021, 1, 1, 1⟩, [some 1]),
        (⟨2021, 1, 1, 2⟩, [some 2])]⟩
      ⟨["a"], [(⟨2021, 1, 1, 1⟩, [some 1]),
        (⟨2021, 1, 1, 2⟩, [some 2])]⟩).rowVal t c =
      Table.rowVal ⟨["a"], [(⟨2021, 1, 1, 1⟩, [some 1]),
        (⟨2021, 1, 1, 2⟩, [some 2])]⟩ t c) :=
  claim6_self_merge ⟨["a"], [(⟨2021, 1, 1, 1⟩, [some 1]),
    (⟨2021, 1, 1, 2⟩, [some 2])]⟩ (by decide) (by decide)

